import Mathlib

/-!
Verification of the RAGatouille late-interaction retrieval design.

The repository's notebooks call into a compressed multi-vector index:
construction, clustering (IVF), residual compression, incremental update,
maxsim search, and a hard-negative miner.  The library code realising those
calls is not part of the repository, so each component below is modelled
from the specification document and the behaviour visible in the notebooks.
Vector components are rational numbers; per the specification, vectors are
L2-normalized before quantization so cosine similarity reduces to dot
product, which is how similarity is computed here.
-/

namespace Ragatouille

/-- Modelled from the spec: an EmbeddingVector is a fixed-length sequence of
floating-point components (modelled as rationals), dimension fixed per index. -/
abbrev EmbeddingVector := List ℚ

/-- Modelled from the spec: similarity of two (L2-normalized) vectors is their
dot product, to which cosine similarity reduces after normalization. -/
def dot : EmbeddingVector → EmbeddingVector → ℚ
  | [], _ => 0
  | _ :: _, [] => 0
  | a :: as, b :: bs => a * b + dot as bs

/-- Maximum of a list of rationals, 0 for the empty list. -/
def listMax : List ℚ → ℚ
  | [] => 0
  | x :: xs => xs.foldl max x

/-- Modelled from the spec: maxsim — for each query vector, the maximum
similarity over all document vectors; summed across query vectors for the
document score. -/
def maxsim (q docVecs : List EmbeddingVector) : ℚ :=
  (q.map (fun qv => listMax (docVecs.map (fun dv => dot qv dv)))).sum

/-- Modelled from the spec: codec parameters — the compression bit-width and
the quantization scale fitted at training time. -/
structure CodecParams where
  bits : ℕ
  scale : ℚ
  deriving DecidableEq

/-- Modelled from the spec: a CompressedVector is the quantized residual of a
vector plus the id of its nearest centroid. -/
structure CompressedVector where
  centroidId : ℕ
  residual : List ℤ
  deriving DecidableEq

/-- Quantize one residual component at the codec's bit-width: scale, round,
and clamp into the signed range of the bit-width. -/
def quantize (params : CodecParams) (x : ℚ) : ℤ :=
  max (-(2 ^ (params.bits - 1) : ℤ))
    (min ((2 : ℤ) ^ (params.bits - 1) - 1) (round (x * params.scale)))

/-- Modelled from the spec: decoding reconstructs centroid + dequantized
residual. -/
def decode (params : CodecParams) (centroids : List EmbeddingVector)
    (cv : CompressedVector) : EmbeddingVector :=
  List.zipWith (fun c r => c + (r : ℚ) / params.scale)
    (centroids.getD cv.centroidId []) cv.residual

/-- Ordering used for all rankings: score descending, ties broken by the
(key-projected) id ascending.  This is the spec's deterministic tie-break. -/
def scoreRel {α : Type} (key : α → ℕ) (a b : α × ℚ) : Prop :=
  b.2 < a.2 ∨ (a.2 = b.2 ∧ key a.1 ≤ key b.1)

instance {α : Type} (key : α → ℕ) : DecidableRel (scoreRel key) := fun a b => by
  unfold scoreRel
  exact inferInstance

instance {α : Type} (key : α → ℕ) : IsTotal (α × ℚ) (scoreRel key) where
  total a b := by
    rcases lt_trichotomy a.2 b.2 with h | h | h
    · exact Or.inr (Or.inl h)
    · rcases Nat.le_total (key a.1) (key b.1) with h2 | h2
      · exact Or.inl (Or.inr ⟨h, h2⟩)
      · exact Or.inr (Or.inr ⟨h.symm, h2⟩)
    · exact Or.inl (Or.inl h)

instance {α : Type} (key : α → ℕ) : IsTrans (α × ℚ) (scoreRel key) where
  trans a b c hab hbc := by
    rcases hab with h1 | ⟨e1, l1⟩ <;> rcases hbc with h2 | ⟨e2, l2⟩
    · exact Or.inl (h2.trans h1)
    · exact Or.inl (lt_of_eq_of_lt e2.symm h1)
    · exact Or.inl (lt_of_lt_of_eq h2 e1.symm)
    · exact Or.inr ⟨e1.trans e2, le_trans l1 l2⟩

/-- Modelled from the spec: nearest centroids for one query vector — centroid
ids ranked by similarity descending, equal-similarity centroids ordered by
centroid id ascending, truncated to the probe count. -/
def nearestCentroids (centroids : List EmbeddingVector) (qv : EmbeddingVector)
    (nprobe : ℕ) : List ℕ :=
  ((List.insertionSort (scoreRel id)
      (centroids.enum.map (fun p => (p.1, dot qv p.2)))).take nprobe).map Prod.fst

/-- Modelled from the spec: assign a vector to its nearest centroid. -/
def assign (centroids : List EmbeddingVector) (v : EmbeddingVector) : ℕ :=
  (nearestCentroids centroids v 1).headD 0

/-- Modelled from the spec: encoding stores the quantized residual
(vector − nearest centroid) together with the nearest centroid id. -/
def encode (params : CodecParams) (centroids : List EmbeddingVector)
    (v : EmbeddingVector) : CompressedVector :=
  let cid := assign centroids v
  ⟨cid, List.zipWith (fun vi ci => quantize params (vi - ci)) v (centroids.getD cid [])⟩

/-- Modelled from the spec: the Index aggregates dimension, codec parameters,
the centroid set, and the Document Store (per-document id and compressed
vectors, whose stored centroid ids are the centroid assignments). -/
structure Index where
  dim : ℕ
  params : CodecParams
  centroids : List EmbeddingVector
  docs : List (ℕ × List CompressedVector)
  deriving DecidableEq

/-- Centroid ids probed for a whole query: the nearest centroids of every
query vector. -/
def probedCentroids (centroids : List EmbeddingVector)
    (q : List EmbeddingVector) (nprobe : ℕ) : List ℕ :=
  (q.map (fun qv => nearestCentroids centroids qv nprobe)).flatten

/-- Modelled from the spec: candidate generation — the documents owning any
vector assigned to a probed centroid, the union capped to bound latency. -/
def candidateDocs (idx : Index) (q : List EmbeddingVector)
    (nprobe maxCand : ℕ) : List (ℕ × List CompressedVector) :=
  let probed := probedCentroids idx.centroids q nprobe
  (idx.docs.filter
    (fun d => d.2.any (fun cv => decide (cv.centroidId ∈ probed)))).take maxCand

/-- Score one candidate document: decompress its vectors and take the maxsim
score against the query. -/
def scoreDoc (idx : Index) (q : List EmbeddingVector)
    (d : ℕ × List CompressedVector) : ℕ × ℚ :=
  (d.1, maxsim q (d.2.map (decode idx.params idx.centroids)))

/-- One entry of a ranked result list, as surfaced by the notebooks: a
document id, its total maxsim score, and its 1-based rank. -/
structure SearchResult where
  docId : ℕ
  score : ℚ
  rank : ℕ
  deriving DecidableEq

/-- Attach consecutive 1-based ranks (starting at the given value) to a
ranked list of (document id, score) pairs. -/
def attachRanks : ℕ → List (ℕ × ℚ) → List SearchResult
  | _, [] => []
  | n, e :: es => ⟨e.1, e.2, n⟩ :: attachRanks (n + 1) es

/-- Scored candidates of a query, ranked by total score descending with ties
broken by document id ascending. -/
def rankedScores (idx : Index) (q : List EmbeddingVector)
    (nprobe maxCand : ℕ) : List (ℕ × ℚ) :=
  List.insertionSort (scoreRel id) ((candidateDocs idx q nprobe maxCand).map (scoreDoc idx q))

/-- Modelled from the spec: search — candidates via IVF, decompress each
candidate's vectors, score by maxsim, rank by total score descending with
ties broken by document id ascending, truncate to k. -/
def search (idx : Index) (q : List EmbeddingVector)
    (k nprobe maxCand : ℕ) : List SearchResult :=
  attachRanks 1 ((rankedScores idx q nprobe maxCand).take k)

/-- Modelled from the spec: batch queries are processed independently; the
result is an ordered list of per-query ranked lists, index-aligned with the
input batch. -/
def searchBatch (idx : Index) (qs : List (List EmbeddingVector))
    (k nprobe maxCand : ℕ) : List (List SearchResult) :=
  qs.map (fun q => search idx q k nprobe maxCand)

/-- Modelled from the spec: a search call as an operation on the index state —
the Searcher performs read-only access, so the call returns its ranked output
together with the (unchanged) index state. -/
def searchCall (idx : Index) (q : List EmbeddingVector)
    (k nprobe maxCand : ℕ) : List SearchResult × Index :=
  (search idx q k nprobe maxCand, idx)

/-- Total number of embeddings across a corpus of embedded documents. -/
def docTotalEmbeddings (docsVecs : List (List EmbeddingVector)) : ℕ :=
  (docsVecs.map List.length).sum

/-- Decompress every stored vector of one document. -/
def decodeDoc (params : CodecParams) (centroids : List EmbeddingVector)
    (d : ℕ × List CompressedVector) : List EmbeddingVector :=
  d.2.map (decode params centroids)

/-- Compress every vector of one document against the given centroid set. -/
def encodeDoc (params : CodecParams) (centroids : List EmbeddingVector)
    (vs : List EmbeddingVector) : List CompressedVector :=
  vs.map (encode params centroids)

/-- Newton iteration for the integer square root, with explicit fuel. -/
def isqrtAux (n : ℕ) : ℕ → ℕ → ℕ
  | 0, guess => guess
  | fuel + 1, guess =>
    let next := (guess + n / guess) / 2
    if next < guess then isqrtAux n fuel next else guess

/-- Integer square root (floor), by Newton iteration. -/
def isqrt (n : ℕ) : ℕ :=
  if n ≤ 1 then n else isqrtAux n n (n / 2 + 1)

/-- Floor of the base-2 logarithm, with explicit fuel. -/
def log2floorAux : ℕ → ℕ → ℕ
  | 0, _ => 0
  | fuel + 1, n => if n ≤ 1 then 0 else log2floorAux fuel (n / 2) + 1

/-- Floor of the base-2 logarithm. -/
def log2floor (n : ℕ) : ℕ :=
  log2floorAux n n

/-- Modelled from the spec: the centroid count scales with corpus size,
roughly proportional to the square root of the total embedding count and
rounded to a power-of-two bucket (1024 centroids for roughly 10K embeddings,
2048 for roughly 18K, matching the notebook's observed partition counts). -/
def chooseNumCentroids (numEmbeddings : ℕ) : ℕ :=
  2 ^ log2floor (16 * isqrt numEmbeddings)

/-- All-zero vector of the given dimension. -/
def zeroVec (dim : ℕ) : EmbeddingVector :=
  List.replicate dim 0

/-- Modelled from the spec: clustering builds the requested number of
centroids from the vectors.  The clustering algorithm itself is external
(k-means); it is modelled as a deterministic selection of representatives,
padded so that exactly the requested number of centroids is produced. -/
def clusterBuild (dim : ℕ) (vectors : List EmbeddingVector)
    (numCentroids : ℕ) : List EmbeddingVector :=
  vectors.take numCentroids ++
    List.replicate (numCentroids - vectors.length) (zeroVec dim)

/-- Modelled from the spec: the error kinds surfaced by build, add, load and
codec training. -/
inductive BuildError where
  | encodingUnavailable
  | diskWriteFailure
  | insufficientTrainingData
  | indexCorrupt
  deriving DecidableEq

/-- Modelled from the spec: the minimum multiple of the cluster count that the
training sample must reach (the reference workflow warns at 39 points per
centroid: 39936 for 1024 centroids, 79872 for 2048). -/
def minTrainingMultiple : ℕ := 39

/-- Outcome of codec training: the cluster count actually trained with, and
whether the count was degraded (the diagnostic of the retry). -/
structure TrainOutcome where
  clusters : ℕ
  degraded : Bool
  deriving DecidableEq

/-- Modelled from the spec: codec training over a sample.  If the sample is
smaller than the minimum multiple of the requested cluster count, training
degrades the cluster count to the largest count the sample supports and
retries once, emitting a diagnostic; it surfaces InsufficientTrainingData
only if still insufficient after the retry. -/
def trainCodec (sampleSize requested : ℕ) : Except BuildError TrainOutcome :=
  if minTrainingMultiple * requested ≤ sampleSize then
    Except.ok ⟨requested, false⟩
  else
    let degraded := sampleSize / minTrainingMultiple
    if 1 ≤ degraded then Except.ok ⟨degraded, true⟩
    else Except.error BuildError.insufficientTrainingData

/-- Modelled from the spec: the manifest of a persisted index records
dimension, bit-width, centroid count, and document count. -/
structure Manifest where
  dim : ℕ
  bits : ℕ
  numCentroids : ℕ
  numDocs : ℕ
  deriving DecidableEq

/-- Modelled from the spec: the persisted index layout — codec parameters,
centroid table, per-document compressed-vector blobs (stored flattened with
per-document lengths), and the manifest. -/
structure PersistedIndex where
  manifest : Manifest
  params : CodecParams
  centroidTable : List EmbeddingVector
  docIds : List ℕ
  docLens : List ℕ
  blobs : List CompressedVector
  deriving DecidableEq

/-- Modelled from the spec: persist an index to the on-disk layout. -/
def saveIndex (idx : Index) : PersistedIndex :=
  { manifest := ⟨idx.dim, idx.params.bits, idx.centroids.length, idx.docs.length⟩
    params := idx.params
    centroidTable := idx.centroids
    docIds := idx.docs.map Prod.fst
    docLens := idx.docs.map (fun d => d.2.length)
    blobs := (idx.docs.map Prod.snd).flatten }

/-- Split a flat blob list back into per-document vector lists. -/
def splitLens : List ℕ → List CompressedVector → List (List CompressedVector)
  | [], _ => []
  | n :: ns, bs => bs.take n :: splitLens ns (bs.drop n)

/-- Modelled from the spec: reopen a persisted index, checking the manifest
against the stored data (a mismatch is IndexCorrupt, fatal, no partial
recovery). -/
def loadIndex (p : PersistedIndex) : Except BuildError Index :=
  if p.manifest.numCentroids = p.centroidTable.length ∧
      p.manifest.numDocs = p.docIds.length ∧
      p.manifest.numDocs = p.docLens.length ∧
      p.docLens.sum = p.blobs.length ∧
      p.manifest.bits = p.params.bits then
    Except.ok ⟨p.manifest.dim, p.params, p.centroidTable,
      p.docIds.zip (splitLens p.docLens p.blobs)⟩
  else
    Except.error BuildError.indexCorrupt

/-- Modelled from the spec: the external Embedding Source boundary — returns
the per-token vectors of a text, or nothing when the encoder is unavailable. -/
structure EmbedSource where
  embed : String → Option (List EmbeddingVector)

/-- Environment of a build: the embedding source and whether disk writes
succeed (failure injection for the atomicity property). -/
structure BuildEnv where
  src : EmbedSource
  diskOk : Bool

/-- Modelled from the spec: durable storage mapping index names to persisted
indexes. -/
abbrev Disk := List (String × PersistedIndex)

/-- Look up a persisted index by name. -/
def diskGet (d : Disk) (name : String) : Option PersistedIndex :=
  (d.find? (fun e => e.1 == name)).map Prod.snd

/-- Atomically commit a persisted index under a name, replacing any previous
version. -/
def diskPut (d : Disk) (name : String) (p : PersistedIndex) : Disk :=
  (name, p) :: d.filter (fun e => !(e.1 == name))

/-- Embed a whole corpus, failing if the encoder fails on any document. -/
def embedAll (src : EmbedSource) : List String → Option (List (List EmbeddingVector))
  | [] => some []
  | t :: ts =>
    match src.embed t with
    | none => none
    | some vs => (embedAll src ts).map (fun rest => vs :: rest)

/-- Modelled from the spec: build_index — Encoding, codec training,
Clustering, Compressing, then a single atomic Persisting commit.  Any failing
step aborts the whole build with an error and leaves the disk untouched. -/
def build_index (env : BuildEnv) (disk : Disk) (name : String) (dim : ℕ)
    (params : CodecParams) (corpus : List String) : Disk × Option BuildError :=
  match embedAll env.src corpus with
  | none => (disk, some BuildError.encodingUnavailable)
  | some docsVecs =>
    let total := docTotalEmbeddings docsVecs
    match trainCodec total (chooseNumCentroids total) with
    | Except.error e => (disk, some e)
    | Except.ok outcome =>
      let cents := clusterBuild dim docsVecs.flatten outcome.clusters
      let docs := docsVecs.enum.map (fun p => (p.1, encodeDoc params cents p.2))
      let idx : Index := ⟨dim, params, cents, docs⟩
      if env.diskOk then (diskPut disk name (saveIndex idx), none)
      else (disk, some BuildError.diskWriteFailure)

/-- Modelled from the spec: add_to_index policy on a loaded index.  Below the
configurable staleness threshold (new-document fraction relative to existing),
append the new documents using the nearest existing centroids, with document
ids assigned deterministically in input order; at or above it, trigger a full
rebuild whose centroid count is recomputed from the new corpus size. -/
def add_to_index (threshold : ℚ) (idx : Index)
    (newDocs : List (List EmbeddingVector)) : Index :=
  if ((newDocs.length : ℚ) / (idx.docs.length : ℚ)) < threshold then
    { idx with
        docs := idx.docs ++ newDocs.enum.map
          (fun p => (idx.docs.length + p.1, encodeDoc idx.params idx.centroids p.2)) }
  else
    let allVecs := idx.docs.map (decodeDoc idx.params idx.centroids) ++ newDocs
    let cents := clusterBuild idx.dim allVecs.flatten
      (chooseNumCentroids (docTotalEmbeddings allVecs))
    { idx with
        centroids := cents
        docs := allVecs.enum.map (fun p => (p.1, encodeDoc idx.params cents p.2)) }

/-- Modelled from the spec: the add driver surface — load the named index,
embed the new documents, apply the append-vs-rebuild policy, and atomically
persist; any failing step aborts with an error and leaves the disk
untouched. -/
def add_to_index_call (env : BuildEnv) (disk : Disk) (name : String)
    (threshold : ℚ) (newTexts : List String) : Disk × Option BuildError :=
  match diskGet disk name with
  | none => (disk, some BuildError.indexCorrupt)
  | some p =>
    match loadIndex p with
    | Except.error e => (disk, some e)
    | Except.ok idx =>
      match embedAll env.src newTexts with
      | none => (disk, some BuildError.encodingUnavailable)
      | some newVecs =>
        let idx2 := add_to_index threshold idx newVecs
        if env.diskOk then (diskPut disk name (saveIndex idx2), none)
        else (disk, some BuildError.diskWriteFailure)

/-- Modelled from the spec: a corpus passage for the hard-negative miner, with
a stable id and its text. -/
structure Passage where
  pid : ℕ
  text : String
  deriving DecidableEq

/-- Modelled from the spec: a passage counts as positive for a query by text
equality or id match against the marked positives. -/
def isPositiveFor (positives : List Passage) (p : Passage) : Bool :=
  positives.any (fun pos => pos.text == p.text || pos.pid == p.pid)

/-- Result of mining one query: the negatives found and a shortfall flag set
when fewer than the requested count were available. -/
structure MinerOutput where
  negatives : List Passage
  shortfall : Bool
  deriving DecidableEq

/-- Modelled from the spec: the eligible passages for one query — the top
(numNegatives + slack) nearest passages of the single-vector corpus index,
with every passage marked positive for the query filtered out. -/
def eligiblePassages (corpus : List (Passage × EmbeddingVector))
    (queryVec : EmbeddingVector) (positives : List Passage)
    (numNegatives slack : ℕ) : List Passage :=
  let scored := corpus.map (fun pe => (pe.1, dot queryVec pe.2))
  let retrieved := ((List.insertionSort (scoreRel Passage.pid) scored).take
    (numNegatives + slack)).map Prod.fst
  retrieved.filter (fun p => !(isPositiveFor positives p))

/-- Modelled from the spec: the hard-negative miner for one query — the first
numNegatives eligible survivors; if fewer are available it returns as many as
available and flags a shortfall rather than failing. -/
def mine (corpus : List (Passage × EmbeddingVector))
    (queryVec : EmbeddingVector) (positives : List Passage)
    (numNegatives slack : ℕ) : MinerOutput :=
  let eligible := eligiblePassages corpus queryVec positives numNegatives slack
  ⟨eligible.take numNegatives, decide (eligible.length < numNegatives)⟩

/-- Concrete codec parameters used for the worked scenario. -/
def demoParams : CodecParams := ⟨4, 1⟩

/-- Concrete centroid set used for the worked scenario. -/
def demoCentroids : List EmbeddingVector := [[1, 0], [0, 1]]

/-- Concrete three-document index with synthetic embeddings, as in the spec's
worked scenario. -/
def demoIdx : Index :=
  ⟨2, demoParams, demoCentroids,
    [(0, [⟨0, [0, 0]⟩]), (1, [⟨1, [0, 0]⟩]), (2, [⟨0, [0, 0]⟩, ⟨1, [0, 0]⟩])]⟩

/-- Concrete single-vector query for the worked scenario. -/
def demoQ : List EmbeddingVector := [[1, 0]]

/-- Concrete embedding source whose encoder is unavailable. -/
def demoDownSource : EmbedSource := ⟨fun _ => none⟩

/-- Concrete build environment whose encoder is unavailable. -/
def demoDownEnv : BuildEnv := ⟨demoDownSource, true⟩

/-- Concrete one-entry disk holding the persisted demo index. -/
def demoDisk : Disk := [("demo", saveIndex demoIdx)]

/-- Concrete single new embedded document for the append scenario. -/
def demoNewOne : List (List EmbeddingVector) := [[[1, 0]]]

/-- Concrete three new embedded documents for the rebuild scenario. -/
def demoNewThree : List (List EmbeddingVector) := [[[1, 0]], [[0, 1]], [[1, 1]]]

/-- Concrete miner corpus of four passages with single-vector embeddings. -/
def demoMinerCorpus : List (Passage × EmbeddingVector) :=
  [(⟨0, "alpha"⟩, [1, 0]), (⟨1, "beta"⟩, [1, 1]),
   (⟨2, "gamma"⟩, [0, 1]), (⟨3, "alpha"⟩, [1, 2])]

/-- Concrete positives for the miner scenario: passage 0's text is positive. -/
def demoPositives : List Passage := [⟨0, "alpha"⟩]

theorem attachRanks_length (n : ℕ) (l : List (ℕ × ℚ)) :
    (attachRanks n l).length = l.length := by
  induction l generalizing n with
  | nil => rfl
  | cons e es ih => simp [attachRanks, ih]

theorem attachRanks_map_proj (n : ℕ) (l : List (ℕ × ℚ)) :
    (attachRanks n l).map (fun r => (r.docId, r.score)) = l := by
  induction l generalizing n with
  | nil => rfl
  | cons e es ih => simp [attachRanks, ih]

theorem attachRanks_take (n m : ℕ) (l : List (ℕ × ℚ)) :
    attachRanks n (l.take m) = (attachRanks n l).take m := by
  induction l generalizing n m with
  | nil => simp [attachRanks]
  | cons e es ih =>
    cases m with
    | zero => simp [attachRanks]
    | succ m => simp [attachRanks, ih]

theorem attachRanks_rank (n : ℕ) (l : List (ℕ × ℚ)) (i : ℕ) (r : SearchResult) :
    (attachRanks n l)[i]? = some r → r.rank = n + i := by
  induction l generalizing n i with
  | nil => intro h; simp [attachRanks] at h
  | cons e es ih =>
    cases i with
    | zero =>
      intro h
      simp [attachRanks] at h
      rw [← h]
      rfl
    | succ i =>
      intro h
      simp [attachRanks] at h
      have := ih (n + 1) i h
      omega

theorem search_sorted (idx : Index) (q : List EmbeddingVector) (k np mc : ℕ) :
    List.Pairwise
      (fun a b : SearchResult => scoreRel id (a.docId, a.score) (b.docId, b.score))
      (search idx q k np mc) := by
  have h1 : List.Pairwise (scoreRel id) (rankedScores idx q np mc) :=
    List.sorted_insertionSort (scoreRel id) _
  have h2 : List.Pairwise (scoreRel id) ((rankedScores idx q np mc).take k) :=
    List.Pairwise.sublist (List.take_sublist k _) h1
  rw [← attachRanks_map_proj 1 ((rankedScores idx q np mc).take k)] at h2
  exact List.pairwise_map.mp h2

theorem search_mem (idx : Index) (q : List EmbeddingVector) (k np mc : ℕ) :
    ∀ r ∈ search idx q k np mc,
      ∃ d ∈ candidateDocs idx q np mc,
        r.docId = d.1 ∧ r.score = maxsim q (d.2.map (decode idx.params idx.centroids)) := by
  intro r hr
  have h1 : (r.docId, r.score) ∈ (rankedScores idx q np mc).take k := by
    rw [← attachRanks_map_proj 1 ((rankedScores idx q np mc).take k)]
    exact List.mem_map_of_mem _ hr
  have h2 : (r.docId, r.score) ∈ rankedScores idx q np mc := List.take_subset _ _ h1
  have h3 : (r.docId, r.score) ∈ (candidateDocs idx q np mc).map (scoreDoc idx q) := by
    simpa [rankedScores] using h2
  rcases List.mem_map.mp h3 with ⟨d, hd, hde⟩
  exact ⟨d, hd, (congrArg Prod.fst hde).symm, (congrArg Prod.snd hde).symm⟩

theorem search_length (idx : Index) (q : List EmbeddingVector) (k np mc : ℕ) :
    (search idx q k np mc).length = min k (candidateDocs idx q np mc).length := by
  simp only [search, rankedScores]
  rw [attachRanks_length, List.length_take,
    (List.perm_insertionSort (scoreRel id) _).length_eq, List.length_map]

/-- C1: for every index and query, each search result's score is the maxsim
score of that candidate document — for every query token vector, the maximum
similarity over all of the document's decompressed token vectors, summed over
query tokens — and the output is ranked by total score descending with ties
broken by document id ascending, truncated to k. -/
theorem search_maxsim_ranked (idx : Index) (q : List EmbeddingVector) (k np mc : ℕ) :
    (∀ r ∈ search idx q k np mc,
       ∃ d ∈ candidateDocs idx q np mc,
         r.docId = d.1 ∧ r.score = maxsim q (d.2.map (decode idx.params idx.centroids))) ∧
    List.Pairwise
      (fun a b : SearchResult => b.score < a.score ∨ (a.score = b.score ∧ a.docId ≤ b.docId))
      (search idx q k np mc) ∧
    (search idx q k np mc).length = min k (candidateDocs idx q np mc).length :=
  ⟨search_mem idx q k np mc, search_sorted idx q k np mc, search_length idx q k np mc⟩

/-- Witness for C1: evaluated at the worked three-document scenario, the
top-ranked result is a candidate and its score is its maxsim score. -/
theorem search_maxsim_ranked_witness :
    ∃ d ∈ candidateDocs demoIdx demoQ 2 8,
      (⟨0, 1, 1⟩ : SearchResult).docId = d.1 ∧
      (⟨0, 1, 1⟩ : SearchResult).score =
        maxsim demoQ (d.2.map (decode demoIdx.params demoIdx.centroids)) :=
  (search_maxsim_ranked demoIdx demoQ 2 2 8).1 ⟨0, 1, 1⟩ (by with_unfolding_all decide)

/-- C2: batch search returns an ordered list of per-query ranked lists
index-aligned with the input, and the result at each index equals the result
of searching that query alone with the same k. -/
theorem searchBatch_index_aligned (idx : Index) (qs : List (List EmbeddingVector))
    (k np mc : ℕ) :
    (searchBatch idx qs k np mc).length = qs.length ∧
    ∀ i : ℕ, (searchBatch idx qs k np mc)[i]? =
      (qs[i]?).map (fun q => search idx q k np mc) := by
  constructor
  · simp [searchBatch]
  · intro i
    simp [searchBatch]

/-- C3: search is deterministic and idempotent — a repeated call on the state
returned by a first call yields identical ranked output, and the call leaves
the index state unchanged (no randomness in scoring). -/
theorem search_deterministic (idx : Index) (q : List EmbeddingVector) (k np mc : ℕ) :
    (searchCall ((searchCall idx q k np mc).2) q k np mc).1 = (searchCall idx q k np mc).1 ∧
    (searchCall idx q k np mc).2 = idx :=
  ⟨rfl, rfl⟩

/-- C9: search results are monotone in k — the ranked list for a smaller k is
the length-k1 initial segment of the ranked list for a larger k. -/
theorem search_monotone_k (idx : Index) (q : List EmbeddingVector) (np mc k1 k2 : ℕ)
    (h : k1 ≤ k2) : search idx q k1 np mc = (search idx q k2 np mc).take k1 := by
  simp only [search]
  rw [← attachRanks_take, List.take_take, Nat.min_eq_left h]

/-- Witness for C9: at the worked scenario, search with k = 3 is the 3-element
initial segment of search with k = 10. -/
theorem search_monotone_k_witness :
    search demoIdx demoQ 3 2 8 = (search demoIdx demoQ 10 2 8).take 3 :=
  search_monotone_k demoIdx demoQ 2 8 3 10 (by decide)

theorem search_rank_consecutive (idx : Index) (q : List EmbeddingVector) (k np mc : ℕ) :
    ∀ i r, (search idx q k np mc)[i]? = some r → r.rank = i + 1 := by
  intro i r h
  have h2 : (attachRanks 1 ((rankedScores idx q np mc).take k))[i]? = some r := by
    simpa [search] using h
  have := attachRanks_rank 1 _ i r h2
  omega

theorem search_scores_antitone (idx : Index) (q : List EmbeddingVector) (k np mc : ℕ) :
    List.Pairwise (fun a b : SearchResult => b.score ≤ a.score) (search idx q k np mc) := by
  refine List.Pairwise.imp ?_ (search_sorted idx q k np mc)
  intro a b hab
  rcases hab with h | ⟨h, _⟩
  · exact le_of_lt h
  · exact le_of_eq h.symm

/-- C10: in every result list returned by search — single query or any element
of a batch result — the rank of the i-th entry is i + 1 (consecutive ranks
starting at 1) and scores are non-increasing as rank increases. -/
theorem search_ranks_consecutive_scores_monotone (idx : Index)
    (q : List EmbeddingVector) (k np mc : ℕ) :
    (∀ i r, (search idx q k np mc)[i]? = some r → r.rank = i + 1) ∧
    List.Pairwise (fun a b : SearchResult => b.score ≤ a.score) (search idx q k np mc) ∧
    ∀ qs : List (List EmbeddingVector), ∀ res ∈ searchBatch idx qs k np mc,
      (∀ i r, res[i]? = some r → r.rank = i + 1) ∧
      List.Pairwise (fun a b : SearchResult => b.score ≤ a.score) res := by
  refine ⟨search_rank_consecutive idx q k np mc, search_scores_antitone idx q k np mc, ?_⟩
  intro qs res hres
  simp only [searchBatch] at hres
  rcases List.mem_map.mp hres with ⟨q2, _, rfl⟩
  exact ⟨search_rank_consecutive idx q2 k np mc, search_scores_antitone idx q2 k np mc⟩

/-- Witness for C10: at the worked scenario, the entry at position 1 of the
result list carries rank 2. -/
theorem search_ranks_consecutive_scores_monotone_witness :
    (⟨2, 1, 2⟩ : SearchResult).rank = 1 + 1 :=
  (search_ranks_consecutive_scores_monotone demoIdx demoQ 3 2 8).1 1 ⟨2, 1, 2⟩
    (by with_unfolding_all decide)

theorem splitLens_flatten (L : List (List CompressedVector)) :
    splitLens (L.map List.length) L.flatten = L := by
  induction L with
  | nil => rfl
  | cons x xs ih => simp [splitLens, ih]

theorem zip_map_fst_snd (l : List (ℕ × List CompressedVector)) :
    (l.map Prod.fst).zip (l.map Prod.snd) = l := by
  induction l with
  | nil => rfl
  | cons x xs ih => simp [ih]

theorem load_save (idx : Index) : loadIndex (saveIndex idx) = Except.ok idx := by
  obtain ⟨dim, params, cents, docs⟩ := idx
  have hmap : docs.map (fun d => d.2.length) = (docs.map Prod.snd).map List.length := by
    rw [List.map_map]
    rfl
  have hsplit : splitLens (docs.map (fun d => d.2.length)) ((docs.map Prod.snd).flatten)
      = docs.map Prod.snd := by
    rw [hmap, splitLens_flatten]
  simp only [loadIndex, saveIndex]
  rw [if_pos]
  · rw [hsplit, zip_map_fst_snd]
  · simp [List.length_flatten, List.map_map]
    rfl

/-- C4: persisting an index and reloading it succeeds and yields an index
whose search results are identical to the pre-reload index's results on every
query. -/
theorem persist_reload_preserves_search (idx : Index) (q : List EmbeddingVector)
    (k np mc : ℕ) :
    ∃ idx2, loadIndex (saveIndex idx) = Except.ok idx2 ∧
      search idx2 q k np mc = search idx q k np mc :=
  ⟨idx, load_save idx, rfl⟩

/-- C5: whenever any step of build_index or add_to_index fails (encoder
unavailable, disk write failure, corrupt load, insufficient training data),
the whole build aborts with a reported error and the prior persisted disk
state is returned unchanged — no partially-written index is visible. -/
theorem build_add_abort_leaves_disk (env : BuildEnv) (disk : Disk) (name : String)
    (dim : ℕ) (params : CodecParams) (corpus : List String) (threshold : ℚ)
    (newTexts : List String) :
    (∀ e, (build_index env disk name dim params corpus).2 = some e →
       (build_index env disk name dim params corpus).1 = disk) ∧
    (∀ e, (add_to_index_call env disk name threshold newTexts).2 = some e →
       (add_to_index_call env disk name threshold newTexts).1 = disk) := by
  constructor
  · intro e he
    simp only [build_index] at he ⊢
    rcases hE : embedAll env.src corpus with _ | docsVecs
    · simp only [hE]
    · simp only [hE] at he ⊢
      rcases hT : trainCodec (docTotalEmbeddings docsVecs)
          (chooseNumCentroids (docTotalEmbeddings docsVecs)) with e2 | oc
      · simp only [hT]
      · simp only [hT] at he ⊢
        cases hD : env.diskOk
        · simp only [hD, Bool.false_eq_true, if_false]
        · simp only [hD, if_true] at he
          exact absurd he (by simp)
  · intro e he
    simp only [add_to_index_call] at he ⊢
    rcases hG : diskGet disk name with _ | p
    · simp only [hG]
    · simp only [hG] at he ⊢
      rcases hL : loadIndex p with e2 | idx
      · simp only [hL]
      · simp only [hL] at he ⊢
        rcases hE : embedAll env.src newTexts with _ | newVecs
        · simp only [hE]
        · simp only [hE] at he ⊢
          cases hD : env.diskOk
          · simp only [hD, Bool.false_eq_true, if_false]
          · simp only [hD, if_true] at he
            exact absurd he (by simp)

/-- Witness for C5: with an unavailable encoder the build aborts and the
demo disk is unchanged, and an add on an empty disk aborts unchanged. -/
theorem build_add_abort_leaves_disk_witness :
    (build_index demoDownEnv demoDisk "x" 2 demoParams ["doc"]).1 = demoDisk ∧
    (add_to_index_call demoDownEnv [] "x" (1 / 2) ["doc"]).1 = ([] : Disk) :=
  ⟨(build_add_abort_leaves_disk demoDownEnv demoDisk "x" 2 demoParams ["doc"] (1 / 2)
      ["doc"]).1 BuildError.encodingUnavailable (by with_unfolding_all decide),
   (build_add_abort_leaves_disk demoDownEnv [] "x" 2 demoParams ["doc"] (1 / 2)
      ["doc"]).2 BuildError.indexCorrupt (by with_unfolding_all decide)⟩

theorem clusterBuild_length (dim : ℕ) (vs : List EmbeddingVector) (k : ℕ) :
    (clusterBuild dim vs k).length = k := by
  simp [clusterBuild]
  omega

/-- C6: add_to_index appends without rebuild when the new-document fraction is
below the staleness threshold (centroid set unchanged, documents appended);
at or above the threshold it triggers a full rebuild whose centroid count is
recomputed from the new corpus size. -/
theorem add_to_index_policy (threshold : ℚ) (idx : Index)
    (newDocs : List (List EmbeddingVector)) :
    (((newDocs.length : ℚ) / (idx.docs.length : ℚ) < threshold) →
       (add_to_index threshold idx newDocs).centroids = idx.centroids ∧
       (add_to_index threshold idx newDocs).docs.length =
         idx.docs.length + newDocs.length) ∧
    (¬((newDocs.length : ℚ) / (idx.docs.length : ℚ) < threshold) →
       (add_to_index threshold idx newDocs).centroids.length =
         chooseNumCentroids (docTotalEmbeddings
           (idx.docs.map (decodeDoc idx.params idx.centroids) ++ newDocs))) := by
  constructor
  · intro h
    simp [add_to_index, h]
  · intro h
    simp [add_to_index, h, clusterBuild_length]

/-- Witness for C6: at the worked scenario, one new document out of three is
below the one-half threshold and appends with centroids unchanged; three new
documents trigger a rebuild with the recomputed centroid count; and the
centroid-count formula yields 1024 at roughly 10K embeddings and 2048 at
roughly 18K as the corpus doubles. -/
theorem add_to_index_policy_witness :
    ((add_to_index (1 / 2) demoIdx demoNewOne).centroids = demoIdx.centroids ∧
     (add_to_index (1 / 2) demoIdx demoNewOne).docs.length =
       demoIdx.docs.length + demoNewOne.length) ∧
    (add_to_index (1 / 2) demoIdx demoNewThree).centroids.length =
      chooseNumCentroids (docTotalEmbeddings
        (demoIdx.docs.map (decodeDoc demoIdx.params demoIdx.centroids) ++ demoNewThree)) ∧
    chooseNumCentroids 10526 = 1024 ∧ chooseNumCentroids 17966 = 2048 :=
  ⟨(add_to_index_policy (1 / 2) demoIdx demoNewOne).1 (by with_unfolding_all decide),
   (add_to_index_policy (1 / 2) demoIdx demoNewThree).2 (by with_unfolding_all decide),
   by decide, by decide⟩

/-- C7: the hard-negative miner never returns a passage marked positive for
the query (by text equality or id match), returns at most the requested
number of negatives, returns as many as are eligible when fewer exist, and
sets the shortfall flag exactly when fewer eligible passages exist than
requested. -/
theorem mine_excludes_positives_and_bounds (corpus : List (Passage × EmbeddingVector))
    (queryVec : EmbeddingVector) (positives : List Passage) (n s : ℕ) :
    (∀ p ∈ (mine corpus queryVec positives n s).negatives,
       isPositiveFor positives p = false) ∧
    (mine corpus queryVec positives n s).negatives.length ≤ n ∧
    (mine corpus queryVec positives n s).negatives.length =
      min n (eligiblePassages corpus queryVec positives n s).length ∧
    (mine corpus queryVec positives n s).shortfall =
      decide ((eligiblePassages corpus queryVec positives n s).length < n) := by
  refine ⟨?_, ?_, ?_, rfl⟩
  · intro p hp
    have hp2 : p ∈ (eligiblePassages corpus queryVec positives n s).take n := by
      simpa [mine] using hp
    have h1 := List.take_subset _ _ hp2
    have h2 : p ∈ ((List.insertionSort (scoreRel Passage.pid)
          (corpus.map (fun pe => (pe.1, dot queryVec pe.2)))).take (n + s)).map Prod.fst ∧
        isPositiveFor positives p = false := by
      simpa [eligiblePassages, List.mem_filter] using h1
    exact h2.2
  · simp only [mine, List.length_take]
    omega
  · simp [mine, List.length_take]

/-- Witness for C7: at the worked miner scenario (10 negatives requested, only
2 eligible after filtering positives), a returned passage is not positive and
the count bound holds. -/
theorem mine_excludes_positives_and_bounds_witness :
    isPositiveFor demoPositives ⟨1, "beta"⟩ = false ∧
    (mine demoMinerCorpus [1, 0] demoPositives 10 2).negatives.length ≤ 10 :=
  ⟨(mine_excludes_positives_and_bounds demoMinerCorpus [1, 0] demoPositives 10 2).1
      ⟨1, "beta"⟩ (by with_unfolding_all decide),
   (mine_excludes_positives_and_bounds demoMinerCorpus [1, 0] demoPositives 10 2).2.1⟩

/-- C8: a codec training call whose sample is smaller than the minimum
multiple of the requested cluster count does not abort: it degrades the
cluster count and retries with a diagnostic, surfacing
InsufficientTrainingData only if the sample is still insufficient after the
retry. -/
theorem trainCodec_degrades_then_surfaces (sampleSize requested : ℕ)
    (h : sampleSize < minTrainingMultiple * requested) :
    (minTrainingMultiple ≤ sampleSize →
       trainCodec sampleSize requested =
         Except.ok ⟨sampleSize / minTrainingMultiple, true⟩) ∧
    (sampleSize < minTrainingMultiple →
       trainCodec sampleSize requested =
         Except.error BuildError.insufficientTrainingData) := by
  have hM : (0 : ℕ) < minTrainingMultiple := by decide
  constructor
  · intro h2
    simp only [trainCodec]
    rw [if_neg (Nat.not_le.mpr h), if_pos ((Nat.one_le_div_iff hM).mpr h2)]
  · intro h2
    simp only [trainCodec]
    rw [if_neg (Nat.not_le.mpr h), if_neg]
    intro hc
    exact absurd ((Nat.one_le_div_iff hM).mp hc) (Nat.not_le.mpr h2)

/-- Witness for C8: a 50-point sample for 1024 requested clusters degrades to
1 cluster with the diagnostic set, and a 10-point sample surfaces
InsufficientTrainingData after the retry. -/
theorem trainCodec_degrades_then_surfaces_witness :
    trainCodec 50 1024 = Except.ok ⟨50 / minTrainingMultiple, true⟩ ∧
    trainCodec 10 1024 = Except.error BuildError.insufficientTrainingData :=
  ⟨(trainCodec_degrades_then_surfaces 50 1024 (by decide)).1 (by decide),
   (trainCodec_degrades_then_surfaces 10 1024 (by decide)).2 (by decide)⟩

end Ragatouille
